import Mathlib

set_option maxRecDepth 8000

/-!
Verification of drive-folder-api (src/server.js and variants) against its
natural-language specification.  The JavaScript handlers are shallowly
embedded as pure Lean functions: Google Drive state is passed explicitly
(as functions from identifiers to metadata), and each Express handler's
success/error branching is mirrored by explicit result types.
-/

namespace DriveFolderApi

/-! ## Folder naming and sanitization (src/server.js, `sanitize`)

`const sanitize = (s) => String(s || '').replace(/[\\/:*?"<>|]/g, '').trim().slice(0, 200);`

Strings are modelled as lists of characters; `slice(0, 200)` is modelled as
taking the first 200 characters (JavaScript counts UTF-16 code units, which
agrees with characters on the inputs considered here).  `trim` removes the
ECMA-262 WhiteSpace and LineTerminator characters from both ends; the
common ones are listed. -/

/-- The characters removed by the regex `[\\/:*?"<>|]`. -/
def badChars : List Char := ['\\', '/', ':', '*', '?', '\"', '<', '>', '|']

/-- ECMA-262 WhiteSpace / LineTerminator characters recognised by `trim`. -/
def isJsWhitespace (c : Char) : Bool :=
  c = ' ' ∨ c = '\t' ∨ c = '\n' ∨ c = '\r' ∨
  c = '\u000B' ∨ c = '\u000C' ∨ c = ' ' ∨ c = '﻿' ∨
  c = ' ' ∨ c = ' ' ∨ c = '　'

/-- `String.prototype.replace(/[\\/:*?"<>|]/g, '')` on a character list. -/
def removeForbidden (l : List Char) : List Char :=
  l.filter (fun c => !badChars.contains c)

/-- The right half of `String.prototype.trim()` on a character list. -/
def jsTrimRight (l : List Char) : List Char :=
  (l.reverse.dropWhile isJsWhitespace).reverse

/-- `String.prototype.trim()` on a character list. -/
def jsTrim (l : List Char) : List Char :=
  jsTrimRight (l.dropWhile isJsWhitespace)

/-- `sanitize` from src/server.js, on a character list:
remove the forbidden characters, trim, then truncate to 200. -/
def sanitizeList (l : List Char) : List Char :=
  (jsTrim (removeForbidden l)).take 200

/-- `sanitize` from src/server.js on strings. -/
def sanitize (s : String) : String :=
  String.mk (sanitizeList s.toList)

/-! ### Helper lemmas about `dropWhile`-based trimming -/

theorem dropWhile_idem {α : Type} (p : α → Bool) (l : List α) :
    List.dropWhile p (List.dropWhile p l) = List.dropWhile p l := by
  induction l with
  | nil => rfl
  | cons x xs ih =>
    by_cases h : p x = true
    · simp [List.dropWhile_cons, h, ih]
    · simp [List.dropWhile_cons, h]

theorem dropWhile_jsTrimRight {α : Type} (p : α → Bool) (w : List α)
    (hw : List.dropWhile p w = w) :
    List.dropWhile p ((w.reverse.dropWhile p).reverse) = (w.reverse.dropWhile p).reverse := by
  cases w with
  | nil => simp
  | cons x xs =>
    have hx : p x = false := by
      by_contra hpx
      have hpx' : p x = true := by
        cases hpair : p x
        · exact absurd hpair hpx
        · rfl
      rw [List.dropWhile_cons, if_pos hpx'] at hw
      have hlen := (List.dropWhile_sublist (l := xs) p).length_le
      rw [hw] at hlen
      simp at hlen
    rw [List.reverse_cons, List.dropWhile_append]
    by_cases he : (List.dropWhile p xs.reverse).isEmpty = true
    · rw [if_pos he]
      simp [List.dropWhile_cons, hx]
    · rw [if_neg he]
      rw [List.reverse_append]
      simp only [List.reverse_cons, List.reverse_nil, List.nil_append, List.singleton_append]
      rw [List.dropWhile_cons, hx]
      simp

theorem jsTrimRight_idem (l : List Char) : jsTrimRight (jsTrimRight l) = jsTrimRight l := by
  unfold jsTrimRight
  rw [List.reverse_reverse, dropWhile_idem]

theorem jsTrim_idem (l : List Char) : jsTrim (jsTrim l) = jsTrim l := by
  unfold jsTrim
  have h1 : List.dropWhile isJsWhitespace (List.dropWhile isJsWhitespace l)
      = List.dropWhile isJsWhitespace l := dropWhile_idem _ _
  have h2 := dropWhile_jsTrimRight isJsWhitespace (List.dropWhile isJsWhitespace l) h1
  show jsTrimRight (List.dropWhile isJsWhitespace
      (jsTrimRight (List.dropWhile isJsWhitespace l))) = _
  unfold jsTrimRight
  rw [h2, List.reverse_reverse, dropWhile_idem]

theorem mem_jsTrimRight {c : Char} {l : List Char} (h : c ∈ jsTrimRight l) : c ∈ l := by
  unfold jsTrimRight at h
  rw [List.mem_reverse] at h
  have := List.Sublist.mem h (List.dropWhile_sublist _)
  rwa [List.mem_reverse] at this

theorem mem_jsTrim {c : Char} {l : List Char} (h : c ∈ jsTrim l) : c ∈ l := by
  unfold jsTrim at h
  exact List.Sublist.mem (mem_jsTrimRight h) (List.dropWhile_sublist _)

theorem jsTrimRight_length_le (l : List Char) : (jsTrimRight l).length ≤ l.length := by
  unfold jsTrimRight
  rw [List.length_reverse]
  have := (List.dropWhile_sublist (l := l.reverse) isJsWhitespace).length_le
  rwa [List.length_reverse] at this

theorem jsTrim_length_le (l : List Char) : (jsTrim l).length ≤ l.length := by
  unfold jsTrim
  exact le_trans (jsTrimRight_length_le _)
    (List.dropWhile_sublist (l := l) isJsWhitespace).length_le

theorem mem_sanitizeList {c : Char} {l : List Char} (h : c ∈ sanitizeList l) :
    c ∈ removeForbidden l := by
  unfold sanitizeList at h
  exact mem_jsTrim (List.mem_of_mem_take h)

theorem sanitizeList_length_le (l : List Char) : (sanitizeList l).length ≤ 200 :=
  List.length_take_le _ _

theorem removeForbidden_sanitizeList (l : List Char) :
    removeForbidden (sanitizeList l) = sanitizeList l := by
  rw [removeForbidden, List.filter_eq_self]
  intro c hc
  have := mem_sanitizeList hc
  rw [removeForbidden, List.mem_filter] at this
  exact this.2

theorem sanitizeList_idem_of_le (l : List Char) (h : l.length ≤ 200) :
    sanitizeList (sanitizeList l) = sanitizeList l := by
  have hlen : (jsTrim (removeForbidden l)).length ≤ 200 :=
    le_trans (jsTrim_length_le _) (le_trans (List.length_filter_le _ _) h)
  have hs : sanitizeList l = jsTrim (removeForbidden l) := by
    rw [sanitizeList, List.take_of_length_le hlen]
  rw [sanitizeList, removeForbidden_sanitizeList, hs, jsTrim_idem,
    List.take_of_length_le hlen]

/-! ### Claim C1 -/

/-- Claim C1 (amended): for every input string, the output of `sanitize`
never contains any of the characters `\ / : * ? " < > |`, its length is at
most 200, and `sanitize` is idempotent on every input of length at most 200
(idempotence fails in general once truncation at 200 applies; see
`sanitize_not_idempotent`). -/
theorem sanitize_charset_length_idem (s : String) :
    (∀ c ∈ (sanitize s).toList, c ∉ badChars) ∧
    (sanitize s).length ≤ 200 ∧
    (s.length ≤ 200 → sanitize (sanitize s) = sanitize s) := by
  refine ⟨?_, sanitizeList_length_le _, ?_⟩
  · intro c hc hmem
    have h1 := mem_sanitizeList (l := s.toList) hc
    rw [removeForbidden, List.mem_filter] at h1
    have h2 : badChars.contains c = true := by
      simpa using hmem
    rw [h2] at h1
    simp at h1
  · intro h
    show String.mk (sanitizeList (sanitizeList s.toList)) = String.mk (sanitizeList s.toList)
    rw [sanitizeList_idem_of_le s.toList h]

/-- Witness for `sanitize_charset_length_idem` at the concrete input `" a/b "`. -/
theorem sanitize_charset_length_idem_witness :
    (" a/b " : String).length ≤ 200 ∧ sanitize (sanitize " a/b ") = sanitize " a/b " :=
  ⟨by decide, (sanitize_charset_length_idem " a/b ").2.2 (by decide)⟩

/-- An input on which `sanitize` is not idempotent: 199 copies of `a`, then a
space, then `b`.  Sanitization truncates at 200 and leaves a trailing space,
which the second application trims away. -/
def nonIdemInput : String := String.mk (List.replicate 199 'a' ++ [' ', 'b'])

/-- Claim C1 counterexample: `sanitize` is not idempotent as claimed; at
`nonIdemInput` the second application shortens the string again. -/
theorem sanitize_not_idempotent :
    sanitize (sanitize nonIdemInput) ≠ sanitize nonIdemInput := by decide

/-! ## Drive folders and the Case Tree Builder (src/server.js, POST /create-case-folders)

A folder created through `createFolder` gets an opaque fresh id from Drive
(modelled by a counter threaded through the computation), stores the
sanitized requested name, and keeps the parent list passed to
`drive.files.create`. -/

/-- A Drive folder as returned by `createFolder` in src/server.js. -/
structure Folder where
  id : Nat
  name : String
  parents : List Nat
deriving DecidableEq

/-- `createFolder(name, parents)` from src/server.js: sanitizes the name and
creates the folder under the given parents, returning the folder record and
the next fresh id. -/
def createFolder (ctr : Nat) (name : String) (parents : List Nat) : Folder × Nat :=
  ({ id := ctr, name := sanitize name, parents := parents }, ctr + 1)

/-- The three fixed status folder names of POST /create-case-folders. -/
def statusNames : List String := ["01_提出物", "02_承認済", "03_差し戻し"]

/-- One child folder per name under a parent, mirroring
`docTypes.map((dt) => createFolder(dt, [s.id]))`. -/
def createChildren (ctr : Nat) (parent : Nat) (names : List String) : List Folder × Nat :=
  match names with
  | [] => ([], ctr)
  | n :: rest =>
    let fc := createFolder ctr n [parent]
    let rc := createChildren fc.2 parent rest
    (fc.1 :: rc.1, rc.2)

/-- The `byStatus` loop of POST /create-case-folders: for each status folder,
create one child per docType entry and key the map by the created status
folder name. -/
def buildByStatus (ctr : Nat) (statuses : List Folder) (docTypes : List String) :
    List (String × List Folder) × Nat :=
  match statuses with
  | [] => ([], ctr)
  | st :: rest =>
    let cc := createChildren ctr st.id docTypes
    let rc := buildByStatus cc.2 rest docTypes
    ((st.name, cc.1) :: rc.1, rc.2)

/-- Result shape of POST /create-case-folders: the root, the `statusFolders`
map (keys pending/approved/rejected, in creation order), and the `docFolders`
map keyed by created status folder name. -/
structure BuildResult where
  root : Folder
  pending : Folder
  approved : Folder
  rejected : Folder
  docFolders : List (String × List Folder)
deriving DecidableEq

/-- The success path of POST /create-case-folders from src/server.js:
create the root, the three status folders under it in fixed order, and the
docType subfolders under each status folder. -/
def buildCaseTree (rootName : String) (docTypes : List String) (parentId : Option Nat) :
    BuildResult :=
  let rootParents : List Nat := match parentId with | some p => [p] | none => []
  let rc := createFolder 0 rootName rootParents
  let root := rc.1
  let s1c := createFolder rc.2 "01_提出物" [root.id]
  let s2c := createFolder s1c.2 "02_承認済" [root.id]
  let s3c := createFolder s2c.2 "03_差し戻し" [root.id]
  let dfc := buildByStatus s3c.2 [s1c.1, s2c.1, s3c.1] docTypes
  { root := root, pending := s1c.1, approved := s2c.1, rejected := s3c.1,
    docFolders := dfc.1 }

/-! ### Helper lemmas about `createChildren` -/

theorem createChildren_map_name (parent : Nat) (names : List String) :
    ∀ ctr, ((createChildren ctr parent names).1.map Folder.name) = names.map sanitize := by
  induction names with
  | nil => intro ctr; rfl
  | cons n rest ih =>
    intro ctr
    simp [createChildren, createFolder, ih]

theorem createChildren_map_parents (parent : Nat) (names : List String) :
    ∀ ctr, ((createChildren ctr parent names).1.map Folder.parents)
      = List.replicate names.length [parent] := by
  induction names with
  | nil => intro ctr; rfl
  | cons n rest ih =>
    intro ctr
    simp [createChildren, createFolder, ih, List.replicate_succ]

theorem createChildren_length (parent : Nat) (names : List String) (ctr : Nat) :
    (createChildren ctr parent names).1.length = names.length := by
  have h := createChildren_map_name parent names ctr
  have := congrArg List.length h
  simpa using this

/-! ### Claim C2 -/

/-- Claim C2: for every rootName, docTypes and optional parent, the Case
Tree Builder creates one root, exactly the three status folders as children
of the root in the fixed order pending (01_提出物), approved (02_承認済),
rejected (03_差し戻し), and one docType subfolder list of length
`docTypes.length` under each status folder preserving the input order; the
returned `docFolders` map has exactly the three status folder names as keys,
each mapped to an array of that length, 3 × n docType folders in total. -/
theorem buildCaseTree_shape (rootName : String) (docTypes : List String)
    (parentId : Option Nat) :
    ∃ l1 l2 l3 : List Folder,
      (buildCaseTree rootName docTypes parentId).docFolders =
        [("01_提出物", l1), ("02_承認済", l2), ("03_差し戻し", l3)] ∧
      (buildCaseTree rootName docTypes parentId).pending.name = "01_提出物" ∧
      (buildCaseTree rootName docTypes parentId).approved.name = "02_承認済" ∧
      (buildCaseTree rootName docTypes parentId).rejected.name = "03_差し戻し" ∧
      (buildCaseTree rootName docTypes parentId).pending.parents =
        [(buildCaseTree rootName docTypes parentId).root.id] ∧
      (buildCaseTree rootName docTypes parentId).approved.parents =
        [(buildCaseTree rootName docTypes parentId).root.id] ∧
      (buildCaseTree rootName docTypes parentId).rejected.parents =
        [(buildCaseTree rootName docTypes parentId).root.id] ∧
      l1.map Folder.name = docTypes.map sanitize ∧
      l2.map Folder.name = docTypes.map sanitize ∧
      l3.map Folder.name = docTypes.map sanitize ∧
      l1.map Folder.parents =
        List.replicate docTypes.length [(buildCaseTree rootName docTypes parentId).pending.id] ∧
      l2.map Folder.parents =
        List.replicate docTypes.length [(buildCaseTree rootName docTypes parentId).approved.id] ∧
      l3.map Folder.parents =
        List.replicate docTypes.length [(buildCaseTree rootName docTypes parentId).rejected.id] ∧
      l1.length = docTypes.length ∧
      l2.length = docTypes.length ∧
      l3.length = docTypes.length ∧
      l1.length + l2.length + l3.length = 3 * docTypes.length := by
  refine ⟨(createChildren 4 1 docTypes).1,
    (createChildren (createChildren 4 1 docTypes).2 2 docTypes).1,
    (createChildren (createChildren (createChildren 4 1 docTypes).2 2 docTypes).2 3
      docTypes).1, ?_, ?_, ?_, ?_, ?_, ?_, ?_, ?_, ?_, ?_, ?_, ?_, ?_, ?_, ?_, ?_, ?_⟩
  · show (buildByStatus 4 _ docTypes).1 = _
    simp only [buildByStatus]
    rfl
  · rfl
  · rfl
  · rfl
  · rfl
  · rfl
  · rfl
  · exact createChildren_map_name _ _ _
  · exact createChildren_map_name _ _ _
  · exact createChildren_map_name _ _ _
  · exact createChildren_map_parents _ _ _
  · exact createChildren_map_parents _ _ _
  · exact createChildren_map_parents _ _ _
  · exact createChildren_length _ _ _
  · exact createChildren_length _ _ _
  · exact createChildren_length _ _ _
  · rw [createChildren_length, createChildren_length, createChildren_length]
    omega

/-! ## Portal token gates (src/server.js, `requireDebtor` and `reviewerOrDebtor`)

JWT verification is modelled by a function `verify : String → Option
PortalClaims`; `none` plays the role of `jwt.verify` throwing (bad
signature or expired token).  The two middlewares use different secrets in
the source, hence each theorem abstracts over the verifier it is given. -/

/-- The claim set of a verified portal JWT.  `scope` is `none` when the
token carries no array-valued `scope` claim (the `Array.isArray` check in
`reviewerOrDebtor` then substitutes the empty list). -/
structure PortalClaims where
  role : String
  scope : Option (List String)
  rootId : String
  debtorName : String
deriving DecidableEq

/-- Outcome of an Express auth middleware: call `next()`, or answer 401/403. -/
inductive GateResult where
  | accept
  | unauthorized
  | forbidden
deriving DecidableEq

/-- `String.prototype.startsWith` (character-list model). -/
def jsStartsWith (s pfx : String) : Bool :=
  pfx.toList.isPrefixOf s.toList

/-- `String.prototype.slice(n)` (character-list model). -/
def jsDrop (s : String) (n : Nat) : String :=
  String.mk (s.toList.drop n)

/-- `requireDebtor` from src/server.js: take the token from the
`Authorization` header when it starts with `Bearer `, else from the `token`
query parameter; a missing token or failed verification gives 401, and a
verified role other than `debtor` gives 403. -/
def requireDebtor (verify : String → Option PortalClaims)
    (authHeader : Option String) (queryToken : String) : GateResult :=
  let hdr := authHeader.getD ""
  let token := if jsStartsWith hdr "Bearer " then jsDrop hdr 7 else queryToken
  if token = "" then .unauthorized
  else
    match verify token with
    | none => .unauthorized
    | some p => if p.role ≠ "debtor" then .forbidden else .accept

/-- The header match `/^Bearer (.+)$/` of `reviewerOrDebtor`: the `(.+)`
group is modelled as a nonempty remainder after `Bearer `. -/
def bearerToken (hdr : String) : Option String :=
  if jsStartsWith hdr "Bearer " ∧ 7 < hdr.toList.length then some (jsDrop hdr 7)
  else none

/-- `reviewerOrDebtor` from src/server.js: a reviewer role always passes; a
debtor role passes only when its scope list includes `preview` or `list`
(non-array scope counts as empty); any other role is forbidden; a missing
bearer token or failed verification gives 401. -/
def reviewerOrDebtor (verify : String → Option PortalClaims)
    (authHeader : Option String) : GateResult :=
  match bearerToken (authHeader.getD "") with
  | none => .unauthorized
  | some token =>
    match verify token with
    | none => .unauthorized
    | some p =>
      if p.role = "reviewer" then .accept
      else if p.role = "debtor" then
        let sc := p.scope.getD []
        if !(sc.contains "preview" || sc.contains "list") then .forbidden
        else .accept
      else .forbidden

/-! ### Claim C3 -/

/-- Claim C3: with the token presented by query to the strict gate and by
`Bearer` header to the role-or-scope gate, an unverifiable token is rejected
by both gates; a verified token is accepted by the strict debtor-only gate
exactly when its role is `debtor`, and by the role-or-scope gate exactly
when its role is `reviewer` or its role is `debtor` with `preview` or `list`
in its scope list; in particular a verified `reviewer` token is rejected
(403) by the strict gate but accepted by the role-or-scope gate. -/
theorem strictGate_vs_roleOrScopeGate (verify : String → Option PortalClaims)
    (hdr t : String) (hb : bearerToken hdr = some t) (ht : t ≠ "") :
    (verify t = none →
      requireDebtor verify none t = .unauthorized ∧
      reviewerOrDebtor verify (some hdr) = .unauthorized) ∧
    ∀ c : PortalClaims, verify t = some c →
      ((requireDebtor verify none t = .accept ↔ c.role = "debtor") ∧
       (reviewerOrDebtor verify (some hdr) = .accept ↔
         (c.role = "reviewer" ∨
          (c.role = "debtor" ∧
           ("preview" ∈ c.scope.getD [] ∨ "list" ∈ c.scope.getD [])))) ∧
       (c.role = "reviewer" →
         requireDebtor verify none t = .forbidden ∧
         reviewerOrDebtor verify (some hdr) = .accept)) := by
  have htok : (if jsStartsWith "" "Bearer " then jsDrop "" 7 else t) = t := by
    have h0 : jsStartsWith "" "Bearer " = false := by decide
    rw [h0]
    simp
  have hreq : requireDebtor verify none t =
      (match verify t with
       | none => GateResult.unauthorized
       | some p => if p.role ≠ "debtor" then .forbidden else .accept) := by
    simp only [requireDebtor, Option.getD_none]
    rw [htok, if_neg ht]
  have hror : reviewerOrDebtor verify (some hdr) =
      (match verify t with
       | none => GateResult.unauthorized
       | some p =>
         if p.role = "reviewer" then .accept
         else if p.role = "debtor" then
           if !((p.scope.getD []).contains "preview" ||
               (p.scope.getD []).contains "list") then .forbidden
           else .accept
         else .forbidden) := by
    show (match bearerToken hdr with
      | none => GateResult.unauthorized
      | some token => _) = _
    rw [hb]
  constructor
  · intro hnone
    rw [hreq, hror, hnone]
    exact ⟨rfl, rfl⟩
  · intro c hc
    rw [hreq, hror, hc]
    refine ⟨?_, ?_, ?_⟩
    · by_cases hr : c.role = "debtor" <;> simp [hr]
    · by_cases hr : c.role = "reviewer"
      · simp [hr]
      · by_cases hd : c.role = "debtor"
        · simp [hr, hd]
          tauto
        · simp [hr, hd]
    · intro hr
      have hd : c.role ≠ "debtor" := by rw [hr]; decide
      simp [hr, hd]

/-- A concrete verifier for the witness: one known token with role
`reviewer`. -/
def reviewerVerify : String → Option PortalClaims :=
  fun s => if s = "tok" then some ⟨"reviewer", none, "R", "D"⟩ else none

/-- Witness for `strictGate_vs_roleOrScopeGate` at a concrete verifier,
header and token: the reviewer token is rejected by the strict gate and
accepted by the role-or-scope gate. -/
theorem strictGate_vs_roleOrScopeGate_witness :
    bearerToken "Bearer tok" = some "tok" ∧ ("tok" : String) ≠ "" ∧
    requireDebtor reviewerVerify none "tok" = .forbidden ∧
    reviewerOrDebtor reviewerVerify (some "Bearer tok") = .accept := by
  refine ⟨by decide, by decide, ?_⟩
  have h := (strictGate_vs_roleOrScopeGate reviewerVerify "Bearer tok" "tok"
    (by decide) (by decide)).2 ⟨"reviewer", none, "R", "D"⟩ (by decide)
  exact h.2.2 rfl

/-! ## Containment Checker (src/server.js, `belongsToRoot`)

The Drive metadata is modelled as a total function from file id to the
parent-id list (`meta.data.parents || []`). -/

/-- The loop of `belongsToRoot`, with the remaining iteration count explicit
(the source runs `for (let i = 0; i < 10; i++)`): answer true when the
current node's parent set contains the allowed root, stop with false on a
parentless node, otherwise follow `parents[0]`. -/
def belongsToRootAux (parents : String → List String) (allowedRootId : String) :
    String → Nat → Bool
  | _, 0 => false
  | cur, fuel + 1 =>
    let ps := parents cur
    if allowedRootId ∈ ps then true
    else
      match ps with
      | [] => false
      | p :: _ => belongsToRootAux parents allowedRootId p fuel

/-- `belongsToRoot` from src/server.js: no restriction when the allowed root
id is absent or empty, otherwise walk `parents[0]` for at most 10 hops. -/
def belongsToRoot (parents : String → List String) (fileId allowedRootId : String) :
    Bool :=
  if allowedRootId = "" then true
  else belongsToRootAux parents allowedRootId fileId 10

/-- The node visited by the walk after `k` hops along `parents[0]` (staying
put on a parentless node, past which the walk never continues). -/
def chainNode (parents : String → List String) (fileId : String) : Nat → String
  | 0 => fileId
  | k + 1 =>
    match parents (chainNode parents fileId k) with
    | [] => chainNode parents fileId k
    | p :: _ => p

theorem chainNode_succ_of_cons (parents : String → List String) (f p : String)
    (rest : List String) (hf : parents f = p :: rest) (k : Nat) :
    chainNode parents f (k + 1) = chainNode parents p k := by
  induction k with
  | zero => simp [chainNode, hf]
  | succ k ih =>
    show (match parents (chainNode parents f (k + 1)) with
      | [] => chainNode parents f (k + 1)
      | p :: _ => p) = _
    rw [ih]
    rfl

theorem belongsToRootAux_true_iff (parents : String → List String) (r : String)
    (f : String) (n : Nat) :
    belongsToRootAux parents r f n = true ↔
      ∃ k, k < n ∧ r ∈ parents (chainNode parents f k) ∧
        ∀ j, j < k → (parents (chainNode parents f j) ≠ [] ∧
          r ∉ parents (chainNode parents f j)) := by
  induction n generalizing f with
  | zero =>
    simp [belongsToRootAux]
  | succ n ih =>
    constructor
    · intro h
      by_cases hr : r ∈ parents f
      · exact ⟨0, Nat.succ_pos n, by simpa [chainNode] using hr,
          fun j hj => absurd hj (Nat.not_lt_zero j)⟩
      · cases hps : parents f with
        | nil =>
          exfalso
          unfold belongsToRootAux at h
          rw [if_neg hr, hps] at h
          exact Bool.false_ne_true h
        | cons p rest =>
          have h' : belongsToRootAux parents r p n = true := by
            unfold belongsToRootAux at h
            rw [if_neg hr, hps] at h
            exact h
          obtain ⟨k, hk, hmem, hguard⟩ := (ih p).mp h'
          refine ⟨k + 1, Nat.succ_lt_succ hk, ?_, ?_⟩
          · rwa [chainNode_succ_of_cons parents f p rest hps]
          · intro j hj
            cases j with
            | zero =>
              refine ⟨?_, by simpa [chainNode] using hr⟩
              show parents (chainNode parents f 0) ≠ []
              simp [chainNode, hps]
            | succ j =>
              rw [chainNode_succ_of_cons parents f p rest hps]
              exact hguard j (Nat.lt_of_succ_lt_succ hj)
    · rintro ⟨k, hk, hmem, hguard⟩
      cases k with
      | zero =>
        have hr : r ∈ parents f := by simpa [chainNode] using hmem
        unfold belongsToRootAux
        rw [if_pos hr]
      | succ k =>
        have h0 := hguard 0 (Nat.succ_pos k)
        have hne : parents f ≠ [] := by simpa [chainNode] using h0.1
        have hnr : r ∉ parents f := by simpa [chainNode] using h0.2
        cases hps : parents f with
        | nil => exact absurd hps hne
        | cons p rest =>
          have hmem' : r ∈ parents (chainNode parents p k) := by
            rwa [chainNode_succ_of_cons parents f p rest hps] at hmem
          have hguard' : ∀ j, j < k →
              (parents (chainNode parents p j) ≠ [] ∧
               r ∉ parents (chainNode parents p j)) := by
            intro j hj
            have := hguard (j + 1) (Nat.succ_lt_succ hj)
            rwa [chainNode_succ_of_cons parents f p rest hps] at this
          have hrec := (ih p).mpr ⟨k, Nat.lt_of_succ_lt_succ hk, hmem', hguard'⟩
          unfold belongsToRootAux
          rw [if_neg hnr, hps]
          exact hrec

/-! ### Claim C4 -/

/-- Claim C4: the Containment Checker returns true exactly when the allowed
root id is absent/empty (no restriction) or some node visited within the
10-hop walk along `parents[0]` has the allowed root in its parent set,
every earlier visited node having a nonempty parent set not containing it;
in all other cases — depth exhausted or a parentless node reached first —
it returns false. -/
theorem belongsToRoot_characterization (parents : String → List String)
    (fileId allowedRootId : String) :
    belongsToRoot parents fileId allowedRootId = true ↔
      (allowedRootId = "" ∨
       ∃ k, k < 10 ∧ allowedRootId ∈ parents (chainNode parents fileId k) ∧
         ∀ j, j < k → (parents (chainNode parents fileId j) ≠ [] ∧
           allowedRootId ∉ parents (chainNode parents fileId j))) := by
  unfold belongsToRoot
  by_cases h : allowedRootId = ""
  · simp [h]
  · rw [if_neg h, belongsToRootAux_true_iff]
    constructor
    · exact Or.inr
    · rintro (he | hex)
      · exact absurd he h
      · exact hex

/-! ### Claim C9 -/

/-- Claim C9 (implicit): the Containment Checker never compares the queried
file id itself against the allowed root, only parent sets of visited nodes;
hence for a nonempty allowed root id queried as its own file id, the check
returns false whenever no visited node's parent set contains that id — the
allowed root is not considered to be under itself. -/
theorem belongsToRoot_self_not_under (parents : String → List String) (r : String)
    (hr : r ≠ "") (h : ∀ k, k < 10 → r ∉ parents (chainNode parents r k)) :
    belongsToRoot parents r r = false := by
  unfold belongsToRoot
  rw [if_neg hr]
  cases hb : belongsToRootAux parents r r 10 with
  | false => rfl
  | true =>
    obtain ⟨k, hk, hmem, _⟩ := (belongsToRootAux_true_iff parents r r 10).mp hb
    exact absurd hmem (h k hk)

/-- Witness for `belongsToRoot_self_not_under`: a root with no parents is
not under itself. -/
theorem belongsToRoot_self_not_under_witness :
    ("R" : String) ≠ "" ∧ belongsToRoot (fun _ => []) "R" "R" = false :=
  ⟨by decide, belongsToRoot_self_not_under (fun _ => []) "R" (by decide)
    (fun k _ => by simp)⟩

/-! ## Case Tree Resolver (src/server.js, `listChildFolders` and GET /case-structure) -/

/-- `listChildFolders(parentId)` from src/server.js: the Drive listing
response per parent id, where `none` models a response without a `files`
field (`data.files || []` substitutes the empty list). -/
def listChildFolders (children : Nat → Option (List Folder)) (parentId : Nat) :
    List Folder :=
  (children parentId).getD []

/-- Response shape of GET /case-structure.  `Object.fromEntries` is
modelled as the association list of its entries. -/
structure CaseStructure where
  statusFolders : List (String × Folder)
  docFolders : List (String × List Folder)
deriving DecidableEq

/-- GET /case-structure success path from src/server.js: list the root's
child folders, key the status map by folder name, then list each status
folder's children as its docType folders. -/
def caseStructure (children : Nat → Option (List Folder)) (rootId : Nat) :
    CaseStructure :=
  let statuses := listChildFolders children rootId
  { statusFolders := statuses.map (fun f => (f.name, f)),
    docFolders := statuses.map (fun s => (s.name, listChildFolders children s.id)) }

/-! ### Claim C6 -/

/-- Claim C6: when the root has no child folders the Resolver answers with
empty statusFolders and docFolders maps rather than raising; and it does
not distinguish an absent root from an existing-but-empty one — a listing
response with no files and one with an empty file list yield the same empty
structures. -/
theorem caseStructure_empty (children : Nat → Option (List Folder)) (rootId : Nat)
    (h : children rootId = none ∨ children rootId = some []) :
    caseStructure children rootId = ⟨[], []⟩ ∧
    ∀ st : Nat → Option (List Folder),
      caseStructure (fun r => if r = rootId then none else st r) rootId =
      caseStructure (fun r => if r = rootId then some [] else st r) rootId := by
  constructor
  · have hl : listChildFolders children rootId = [] := by
      rcases h with h | h <;> simp [listChildFolders, h]
    simp [caseStructure, hl]
  · intro st
    simp [caseStructure, listChildFolders]

/-- Witness for `caseStructure_empty` at a drive with no listings at all. -/
theorem caseStructure_empty_witness :
    ((fun _ => (none : Option (List Folder))) 0 = none ∨
     (fun _ => (none : Option (List Folder))) 0 = some []) ∧
    caseStructure (fun _ => none) 0 = ⟨[], []⟩ :=
  ⟨Or.inl rfl, (caseStructure_empty (fun _ => none) 0 (Or.inl rfl)).1⟩

/-! ## Stored file names (src/server.js, POST /upload-to-folder and POST /portal/upload) -/

/-- Final stored name in POST /upload-to-folder:
`namePrefix ? sanitize(namePrefix)_now_safeOriginal : safeOriginal`.
The empty string models a missing or otherwise falsy namePrefix;
`originalName` is the original file name after the latin1-to-utf8
re-decoding step. -/
def uploadToFolderName (prefixName now originalName : String) : String :=
  let safeOriginal := sanitize originalName
  if prefixName ≠ "" then sanitize prefixName ++ "_" ++ now ++ "_" ++ safeOriginal
  else safeOriginal

/-- Final stored name in POST /portal/upload: `docType_stamp_safeName`
(the docType is used unsanitized here). -/
def portalUploadName (docType stamp originalName : String) : String :=
  docType ++ "_" ++ stamp ++ "_" ++ sanitize originalName

/-! ### Claim C5 -/

/-- Claim C5 (amended): POST /portal/upload always stores
`docType_timestamp_sanitizedOriginalName`; POST /upload-to-folder stores
`sanitize(namePrefix)_timestamp_sanitizedOriginalName` when a namePrefix is
supplied, but just the sanitized original name, with no timestamp
component, when the namePrefix is absent. -/
theorem uploadNames_shape (prefixName now originalName docType stamp : String) :
    (prefixName ≠ "" →
      uploadToFolderName prefixName now originalName =
        sanitize prefixName ++ "_" ++ now ++ "_" ++ sanitize originalName) ∧
    uploadToFolderName "" now originalName = sanitize originalName ∧
    portalUploadName docType stamp originalName =
      docType ++ "_" ++ stamp ++ "_" ++ sanitize originalName := by
  refine ⟨fun h => ?_, ?_, rfl⟩
  · simp [uploadToFolderName, h]
  · simp [uploadToFolderName]

/-- Witness for `uploadNames_shape` at concrete inputs. -/
theorem uploadNames_shape_witness :
    ("X" : String) ≠ "" ∧
    uploadToFolderName "X" "20250101T000000" "a.pdf" =
      sanitize "X" ++ "_" ++ "20250101T000000" ++ "_" ++ sanitize "a.pdf" :=
  ⟨by decide, (uploadNames_shape "X" "20250101T000000" "a.pdf" "dt" "S").1 (by decide)⟩

/-- Claim C5 counterexample: with no namePrefix, POST /upload-to-folder
stores just the sanitized original name — the request's timestamp does not
precede it. -/
theorem uploadToFolderName_no_timestamp :
    uploadToFolderName "" "20250101T000000" "doc.pdf" = "doc.pdf" ∧
    uploadToFolderName "" "20250101T000000" "doc.pdf" ≠
      "20250101T000000" ++ "_" ++ "doc.pdf" :=
  ⟨by decide, by decide⟩

/-! ## Upload handlers (src/server.js, POST /upload-to-folder and POST /portal/upload) -/

/-- A Drive permission grant; `grantPublic` issues
`{ role: 'reader', type: 'anyone' }`. -/
structure DrivePerm where
  role : String
  permType : String
deriving DecidableEq

/-- Observable outcome of a successful upload: the parent the file was
created under, its final stored name, the permission grants issued on it,
and the `isPublic` flag reported in the JSON response.  `π` is the type of
parent identifiers. -/
structure UploadOutcome (π : Type) where
  parent : π
  name : String
  grants : List DrivePerm
  isPublic : Bool
deriving DecidableEq

/-- Error answers of POST /upload-to-folder (both 400). -/
inductive UploadErr where
  | missingFile
  | missingFolderId
deriving DecidableEq

/-- POST /upload-to-folder from src/server.js: requires a file part and a
folderId; on success creates the file under folderId with the computed
final name, then unconditionally grants public read and reports
`isPublic: true`. -/
def uploadToFolderHandler (hasFile : Bool) (folderId prefixName now originalName : String) :
    Except UploadErr (UploadOutcome String) :=
  if !hasFile then .error .missingFile
  else if folderId = "" then .error .missingFolderId
  else
    .ok { parent := folderId,
          name := uploadToFolderName prefixName now originalName,
          grants := [⟨"reader", "anyone"⟩],
          isPublic := true }

/-- Error answers of POST /portal/upload (all 400). -/
inductive PortalUploadErr where
  | missingFile
  | missingDocType
  | noPendingFolder
  | noDocTypeFolder
deriving DecidableEq

/-- POST /portal/upload from src/server.js: requires a file part and a
docType; resolves the 01_提出物 folder under the token's rootId, then the
docType folder under it; on success creates the file there with
`docType_stamp_safeName`, unconditionally grants public read and reports
`isPublic: true`. -/
def portalUploadHandler (hasFile : Bool) (docType : String)
    (children : Nat → Option (List Folder)) (rootId : Nat)
    (stamp originalName : String) : Except PortalUploadErr (UploadOutcome Nat) :=
  if !hasFile then .error .missingFile
  else if docType = "" then .error .missingDocType
  else
    match (listChildFolders children rootId).find? (fun st => st.name == "01_提出物") with
    | none => .error .noPendingFolder
    | some pending =>
      match (listChildFolders children pending.id).find? (fun c => c.name == docType) with
      | none => .error .noDocTypeFolder
      | some folder =>
        .ok { parent := folder.id,
              name := portalUploadName docType stamp originalName,
              grants := [⟨"reader", "anyone"⟩],
              isPublic := true }

/-! ### Claim C10 -/

/-- Claim C10 (implicit): every successful upload through POST
/upload-to-folder or POST /portal/upload grants anyone-with-link reader
permission on the new file and reports `isPublic: true`, whatever the
request parameters — no parameter keeps an uploaded file private. -/
theorem upload_always_public (hasFile : Bool)
    (folderId prefixName now originalName : String) (hasFile2 : Bool)
    (docType : String) (children : Nat → Option (List Folder)) (rootId : Nat)
    (stamp originalName2 : String) :
    (∀ o : UploadOutcome String,
      uploadToFolderHandler hasFile folderId prefixName now originalName = .ok o →
      o.grants = [⟨"reader", "anyone"⟩] ∧ o.isPublic = true) ∧
    (∀ o : UploadOutcome Nat,
      portalUploadHandler hasFile2 docType children rootId stamp originalName2 = .ok o →
      o.grants = [⟨"reader", "anyone"⟩] ∧ o.isPublic = true) := by
  constructor
  · intro o ho
    unfold uploadToFolderHandler at ho
    split at ho
    · cases ho
    · split at ho
      · cases ho
      · cases ho
        exact ⟨rfl, rfl⟩
  · intro o ho
    unfold portalUploadHandler at ho
    split at ho
    · cases ho
    · split at ho
      · cases ho
      · split at ho
        · cases ho
        · split at ho
          · cases ho
          · cases ho
            exact ⟨rfl, rfl⟩

/-- A two-level drive for the witness: root 0 holds the 01_提出物 folder
(id 1), which holds the docType folder `dt` (id 2). -/
def portalChildren : Nat → Option (List Folder) :=
  fun n =>
    if n = 0 then some [⟨1, "01_提出物", [0]⟩]
    else if n = 1 then some [⟨2, "dt", [1]⟩]
    else none

/-- Witness for `upload_always_public`: both handlers succeed on concrete
inputs and the resulting outcomes carry the anyone-reader grant and
`isPublic: true`. -/
theorem upload_always_public_witness :
    uploadToFolderHandler true "f1" "" "T" "a.pdf" =
      .ok ⟨"f1", "a.pdf", [⟨"reader", "anyone"⟩], true⟩ ∧
    portalUploadHandler true "dt" portalChildren 0 "S" "b.pdf" =
      .ok ⟨2, "dt_S_b.pdf", [⟨"reader", "anyone"⟩], true⟩ ∧
    ((⟨"f1", "a.pdf", [⟨"reader", "anyone"⟩], true⟩ : UploadOutcome String).grants =
        [⟨"reader", "anyone"⟩] ∧
      (⟨"f1", "a.pdf", [⟨"reader", "anyone"⟩], true⟩ : UploadOutcome String).isPublic =
        true) ∧
    ((⟨2, "dt_S_b.pdf", [⟨"reader", "anyone"⟩], true⟩ : UploadOutcome Nat).grants =
        [⟨"reader", "anyone"⟩] ∧
      (⟨2, "dt_S_b.pdf", [⟨"reader", "anyone"⟩], true⟩ : UploadOutcome Nat).isPublic =
        true) :=
  ⟨rfl, rfl,
   (upload_always_public true "f1" "" "T" "a.pdf" true "dt" portalChildren 0 "S"
     "b.pdf").1 _ rfl,
   (upload_always_public true "f1" "" "T" "a.pdf" true "dt" portalChildren 0 "S"
     "b.pdf").2 _ rfl⟩

/-! ## Preview handler (src/server.js, GET /files/preview/:fileId) -/

/-- Answers of the preview route after authorization has passed: 403 when
the containment gate fails, 413 when the size ceiling is exceeded,
otherwise the byte stream with its headers. -/
inductive PreviewResult where
  | forbidden
  | payloadTooLarge
  | stream (mime fileName : String)
deriving DecidableEq

/-- GET /files/preview/:fileId from src/server.js, success path after the
`reviewerOrDebtor` gate: when the token binds an allowed root
(`allowedRootId` nonempty), a failing containment check answers 403; then
with a configured ceiling (`PREVIEW_MAX_BYTES` positive) a
metadata-reported size above it answers 413; otherwise the bytes are
streamed. -/
def previewHandler (parents : String → List String) (allowedRootId fileId : String)
    (size maxBytes : Nat) (mime fileName : String) : PreviewResult :=
  if allowedRootId ≠ "" ∧ belongsToRoot parents fileId allowedRootId = false then
    .forbidden
  else if 0 < maxBytes ∧ maxBytes < size then .payloadTooLarge
  else .stream mime fileName

/-! ### Claim C7 -/

/-- Claim C7: whenever a size ceiling is configured, the metadata-reported
size exceeds it, and the request passes the containment gate (no bound
root, or the file belongs to it — metadata is only consulted past that
gate), the preview handler answers 413 PayloadTooLarge and does not stream
any bytes. -/
theorem preview_payload_too_large (parents : String → List String)
    (allowedRootId fileId : String) (size maxBytes : Nat) (mime fileName : String)
    (hmax : 0 < maxBytes) (hsize : maxBytes < size)
    (hgate : allowedRootId = "" ∨ belongsToRoot parents fileId allowedRootId = true) :
    previewHandler parents allowedRootId fileId size maxBytes mime fileName =
      .payloadTooLarge ∧
    ∀ m fn, previewHandler parents allowedRootId fileId size maxBytes mime fileName ≠
      .stream m fn := by
  have hc : ¬(allowedRootId ≠ "" ∧ belongsToRoot parents fileId allowedRootId = false) := by
    rcases hgate with h | h
    · intro hx; exact hx.1 h
    · intro hx; rw [h] at hx; exact absurd hx.2 (by decide)
  have hval : previewHandler parents allowedRootId fileId size maxBytes mime fileName =
      .payloadTooLarge := by
    unfold previewHandler
    rw [if_neg hc, if_pos ⟨hmax, hsize⟩]
  exact ⟨hval, fun m fn h => by rw [hval] at h; cases h⟩

/-- Witness for `preview_payload_too_large`: ceiling 1 byte, size 2, no
bound root. -/
theorem preview_payload_too_large_witness :
    (0 < 1 ∧ 1 < 2 ∧ ("" : String) = "") ∧
    previewHandler (fun _ => []) "" "f" 2 1 "text/plain" "a.txt" = .payloadTooLarge :=
  ⟨⟨by decide, by decide, rfl⟩,
   (preview_payload_too_large (fun _ => []) "" "f" 2 1 "text/plain" "a.txt"
     (by decide) (by decide) (Or.inl rfl)).1⟩

/-! ## Case Registry (src/server.js registry variant, GET /api/public/cases/:publicId)

The relational rows follow the Prisma schema: `Case`, `CasePublicLink`
(publicId unique, one link per case, cascade delete) and `CaseDocument`. -/

/-- A `Case` row. -/
structure CaseRec where
  id : Nat
  debtorName : Option String
  status : String
  createdAt : Nat
deriving DecidableEq

/-- A `CasePublicLink` row. -/
structure CasePublicLink where
  id : Nat
  caseId : Nat
  publicId : String
  isActive : Bool
deriving DecidableEq

/-- A `CaseDocument` row. -/
structure CaseDocument where
  id : Nat
  caseId : Nat
  docType : String
  status : String
  submittedAt : Option Nat
deriving DecidableEq

/-- The registry database state. -/
structure Registry where
  cases : List CaseRec
  links : List CasePublicLink
  documents : List CaseDocument

/-- A document as serialized in the public response. -/
structure PublicDoc where
  id : Nat
  docType : String
  status : String
  submittedAt : Option Nat
deriving DecidableEq

/-- The 200 body of GET /api/public/cases/:publicId. -/
structure PublicCaseBody where
  debtorName : Option String
  status : String
  createdAt : Nat
  documents : List PublicDoc
deriving DecidableEq

/-- Result of GET /api/public/cases/:publicId: 404, 200 with a body, or the
500 catch-all. -/
inductive PublicCaseResult where
  | notFound
  | ok (body : PublicCaseBody)
  | serverError
deriving DecidableEq

/-- `prisma.casePublicLink.findUnique({where: {publicId}})`. -/
def findLinkByPublicId (reg : Registry) (pid : String) : Option CasePublicLink :=
  reg.links.find? (fun l => l.publicId == pid)

/-- The documents included with a case (`include: {documents: true}`). -/
def documentsOf (reg : Registry) (caseId : Nat) : List CaseDocument :=
  reg.documents.filter (fun d => d.caseId == caseId)

/-- GET /api/public/cases/:publicId from the registry variant of the
source: 404 when no link matches the public id or the matching link is
inactive, otherwise 200 with the case's public fields and its documents.
A dangling link (no owning case) would crash into the 500 branch; the
schema's cascade-deleting foreign key rules that state out. -/
def publicCaseLookup (reg : Registry) (pid : String) : PublicCaseResult :=
  match findLinkByPublicId reg pid with
  | none => .notFound
  | some link =>
    if !link.isActive then .notFound
    else
      match reg.cases.find? (fun c => c.id == link.caseId) with
      | none => .serverError
      | some c =>
        .ok { debtorName := c.debtorName, status := c.status, createdAt := c.createdAt,
              documents := (documentsOf reg c.id).map
                (fun d => ⟨d.id, d.docType, d.status, d.submittedAt⟩) }

/-! ### Claim C8 -/

/-- Claim C8: under the schema's invariants (unique public ids, every link
owned by an existing case), the public case lookup answers 404 exactly when
no share link carries the requested public id or the matching link is
inactive; otherwise it answers 200 with the owning case's debtorName,
status and createdAt together with the case's documents — the empty list
when the case has none. -/
theorem publicCaseLookup_spec (reg : Registry) (pid : String)
    (hnodup : (reg.links.map CasePublicLink.publicId).Nodup)
    (hfk : ∀ l ∈ reg.links, ∃ c ∈ reg.cases, c.id = l.caseId) :
    (publicCaseLookup reg pid = .notFound ↔
      (¬ ∃ l ∈ reg.links, l.publicId = pid) ∨
      (∃ l ∈ reg.links, l.publicId = pid ∧ l.isActive = false)) ∧
    (∀ l ∈ reg.links, l.publicId = pid → l.isActive = true →
      ∃ c ∈ reg.cases, c.id = l.caseId ∧
        publicCaseLookup reg pid =
          .ok { debtorName := c.debtorName, status := c.status,
                createdAt := c.createdAt,
                documents := (documentsOf reg c.id).map
                  (fun d => ⟨d.id, d.docType, d.status, d.submittedAt⟩) } ∧
        ((∀ d ∈ reg.documents, d.caseId ≠ c.id) → documentsOf reg c.id = [])) := by
  cases hF : findLinkByPublicId reg pid with
  | none =>
    have hlook : publicCaseLookup reg pid = .notFound := by
      unfold publicCaseLookup
      rw [hF]
    have hnone : ∀ l ∈ reg.links, l.publicId ≠ pid := by
      intro l hl
      have := List.find?_eq_none.mp hF l hl
      simpa using this
    constructor
    · rw [hlook]
      constructor
      · intro _
        left
        rintro ⟨l, hl, hpid⟩
        exact hnone l hl hpid
      · intro _
        rfl
    · intro l hl hpid
      exact absurd hpid (hnone l hl)
  | some l0 =>
    have hl0mem : l0 ∈ reg.links := List.mem_of_find?_eq_some hF
    have hl0pid : l0.publicId = pid := by
      have := List.find?_some hF
      simpa using this
    have huniq : ∀ l ∈ reg.links, l.publicId = pid → l = l0 := by
      intro l hl hlp
      exact List.inj_on_of_nodup_map hnodup hl hl0mem (by rw [hlp, hl0pid])
    cases hact : l0.isActive with
    | false =>
      have hlook : publicCaseLookup reg pid = .notFound := by
        unfold publicCaseLookup
        rw [hF]
        simp [hact]
      constructor
      · rw [hlook]
        constructor
        · intro _
          right
          exact ⟨l0, hl0mem, hl0pid, hact⟩
        · intro _
          rfl
      · intro l hl hlp hactl
        rw [huniq l hl hlp, hact] at hactl
        cases hactl
    | true =>
      obtain ⟨c0, hc0mem, hc0id⟩ := hfk l0 hl0mem
      have hsome : (reg.cases.find? (fun c => c.id == l0.caseId)).isSome := by
        rw [List.find?_isSome]
        exact ⟨c0, hc0mem, by simp [hc0id]⟩
      obtain ⟨c, hc⟩ := Option.isSome_iff_exists.mp hsome
      have hcmem : c ∈ reg.cases := List.mem_of_find?_eq_some hc
      have hcid : c.id = l0.caseId := by
        have := List.find?_some hc
        simpa using this
      have hlook : publicCaseLookup reg pid =
          .ok { debtorName := c.debtorName, status := c.status,
                createdAt := c.createdAt,
                documents := (documentsOf reg c.id).map
                  (fun d => ⟨d.id, d.docType, d.status, d.submittedAt⟩) } := by
        unfold publicCaseLookup
        rw [hF]
        simp only [hact, Bool.not_true, Bool.false_eq_true, if_false]
        rw [hc]
      constructor
      · rw [hlook]
        constructor
        · intro h
          exact absurd h (by simp)
        · rintro (hno | ⟨l, hl, hlp, hinact⟩)
          · exact absurd ⟨l0, hl0mem, hl0pid⟩ hno
          · rw [huniq l hl hlp, hact] at hinact
            exact absurd hinact (by decide)
      · intro l hl hlp hactl
        refine ⟨c, hcmem, ?_, hlook, ?_⟩
        · rw [huniq l hl hlp]
          exact hcid
        · intro hnod
          unfold documentsOf
          rw [List.filter_eq_nil_iff]
          intro d hd
          simpa using hnod d hd

/-- A one-case registry for the witness. -/
def sampleRegistry : Registry :=
  { cases := [⟨1, some "X", "open", 0⟩],
    links := [⟨1, 1, "pub1", true⟩],
    documents := [] }

/-- Witness for `publicCaseLookup_spec`: the sample registry satisfies the
schema invariants, and an unknown public id answers 404 by the
characterization. -/
theorem publicCaseLookup_spec_witness :
    ((sampleRegistry.links.map CasePublicLink.publicId).Nodup ∧
     ∀ l ∈ sampleRegistry.links, ∃ c ∈ sampleRegistry.cases, c.id = l.caseId) ∧
    (publicCaseLookup sampleRegistry "nope" = .notFound ↔
      (¬ ∃ l ∈ sampleRegistry.links, l.publicId = "nope") ∨
      (∃ l ∈ sampleRegistry.links, l.publicId = "nope" ∧ l.isActive = false)) :=
  ⟨⟨by decide, by decide⟩,
   (publicCaseLookup_spec sampleRegistry "nope" (by decide) (by decide)).1⟩

end DriveFolderApi
